import Mathlib

/-!
Verification development for the HeartSync VST3 biometric pipeline.

The definitions below are a shallow embedding of the C++ sources:

* `HeartSyncBLEClient.cpp` — the bridge IPC client: `sendCommand`, the
  `run` loop's receive branch (`runIteration`), `checkHeartbeat`,
  `processMessage` (heartbeat handling), and the reconnect backoff delay
  of `attemptReconnect` (`attemptReconnectDelay`).
* `PluginProcessor_Professional.cpp` — the biometric math:
  `updateBiometricParameters` (bridge path), `addToHistory`,
  `getRawHeartRateHistory`, and the `onDisconnected` bridge callback
  (`onDisconnectedHandler`).

Floating point (`float`/`double`) is modelled with exact rational
arithmetic `ℚ`; C++ `int` casts of nonnegative doubles truncate, which
coincides with `Int.floor` on nonnegative values.  Wall-clock timestamps
are passed in explicitly as rational "now" values.
-/

namespace HeartSync

/-- JUCE `jlimit (lowerLimit, upperLimit, value)`: clamp `value` into
`[lower, upper]` (for `lower ≤ upper`). -/
def jlimit (lower upper value : ℚ) : ℚ :=
  if value < lower then lower else if upper < value then upper else value

/-- One EMA update, `PluginProcessor_Professional.cpp:720`:
`bridgeSmoothedValue = bridgeSmoothedValue + alpha * (adjustedRawHr - bridgeSmoothedValue)`. -/
def emaStep (alpha target s : ℚ) : ℚ :=
  s + alpha * (target - s)

/-- Wet/dry from an absolute difference, `PluginProcessor_Professional.cpp:732`:
`juce::jlimit(0.0f, 100.0f, 50.0f + diff * 2.0f + wetDryOffset)`. -/
def wetDryFromDiff (diff wetDryOffset : ℚ) : ℚ :=
  jlimit 0 100 (50 + diff * 2 + wetDryOffset)

/-- The selector-dependent difference, `PluginProcessor_Professional.cpp:728-730`:
`useSmoothed ? std::abs(adjustedRawHr - smoothedHr) : std::abs(smoothedHr - adjustedRawHr)`. -/
def wetDryDiff (useSmoothed : Bool) (adjusted smoothed : ℚ) : ℚ :=
  if useSmoothed then |adjusted - smoothed| else |smoothed - adjusted|

/-- The full wet/dry computation of `updateBiometricParameters`. -/
def computeWetDry (useSmoothed : Bool) (adjusted smoothed wetDryOffset : ℚ) : ℚ :=
  wetDryFromDiff (wetDryDiff useSmoothed adjusted smoothed) wetDryOffset

/-- `HeartSyncBLEClient.h:128`: `static constexpr int MAX_RECONNECT_ATTEMPTS = 10`. -/
def MAX_RECONNECT_ATTEMPTS : Nat := 10

/-- Backoff delay computed by `HeartSyncBLEClient::attemptReconnect`
(`HeartSyncBLEClient.cpp:415-422`): the attempt index is capped at
`MAX_RECONNECT_ATTEMPTS`, `baseDelay = 100 * (1 << cappedAttempt)` clamped
to `5000`, and the result is `static_cast<int>(baseDelay * jitter)` where
`jitter = 0.9 + random * 0.2`.  All values stay far below `INT_MAX`
(at most `100 * 2^10 = 102400`), so plain integers model the C++ `int`;
the cast truncates, which on these nonnegative products is `Int.floor`. -/
def attemptReconnectDelay (reconnectAttempts : Nat) (jitter : ℚ) : ℤ :=
  let cappedAttempt := min reconnectAttempts MAX_RECONNECT_ATTEMPTS
  let baseDelay0 : ℤ := 100 * 2 ^ cappedAttempt
  let baseDelay : ℤ := if baseDelay0 > 5000 then 5000 else baseDelay0
  ⌊(baseDelay : ℚ) * jitter⌋

/-- `HeartSyncBLEClient.cpp:13`: `static constexpr uint32_t MAX_MESSAGE_SIZE = 65536`. -/
def MAX_MESSAGE_SIZE : Nat := 65536

/-- `HeartSyncBLEClient.cpp:14`: `static constexpr double HEARTBEAT_TIMEOUT = 5.0` seconds. -/
def HEARTBEAT_TIMEOUT : ℚ := 5

/-- Bridge-client state touched by the receive loop: the `connected`
atomic, whether `socketFd >= 0` (`socketOpen`), and `lastHeartbeatTime`
in seconds. -/
structure ClientState where
  connected : Bool
  socketOpen : Bool
  lastHeartbeatTime : ℚ
deriving DecidableEq, Repr

/-- `HeartSyncBLEClient::checkHeartbeat` (`HeartSyncBLEClient.cpp:476-489`):
if `now - lastHeartbeatTime > HEARTBEAT_TIMEOUT`, set `connected = false`
and close the socket (the close is guarded by `socketFd >= 0`, making it
idempotent).  No callback of any kind is invoked here. -/
def checkHeartbeat (now : ℚ) (s : ClientState) : ClientState :=
  if now - s.lastHeartbeatTime > HEARTBEAT_TIMEOUT then
    { s with connected := false, socketOpen := false }
  else s

/-- The decoded bridge messages as far as client state is concerned:
`bridge_heartbeat` resets the heartbeat timer
(`HeartSyncBLEClient.cpp:499-502`); every other message type
(`ready`, `permission`, `device_found`, `hr_data`, `connected`,
`disconnected`, `error`) leaves `connected`, `socketOpen` and
`lastHeartbeatTime` untouched and only dispatches data callbacks. -/
inductive BridgeMessage
  | heartbeat
  | other
deriving DecidableEq, Repr

/-- `HeartSyncBLEClient::processMessage` restricted to the state of
`ClientState`: only `bridge_heartbeat` writes `lastHeartbeatTime = now`
(`HeartSyncBLEClient.cpp:501`). -/
def processMessage (now : ℚ) (m : BridgeMessage) (s : ClientState) : ClientState :=
  match m with
  | .heartbeat => { s with lastHeartbeatTime := now }
  | .other => s

/-- What one blocking receive of the `run` loop yields:
`headerShort` models `recv` of the 4-byte length prefix returning
anything other than 4; `frame len bodyOk msg` models a length prefix of
`len` (after `ntohl`) followed by a body read that either fails partway
(`bodyOk = false`) or completes, with `msg = none` for malformed JSON /
non-object payloads and `msg = some m` for a parsed object. -/
inductive RecvEvent
  | headerShort
  | frame (declaredLen : Nat) (bodyOk : Bool) (msg : Option BridgeMessage)
deriving DecidableEq, Repr

/-- One iteration of the `connected && socketFd >= 0` branch of
`HeartSyncBLEClient::run` (`HeartSyncBLEClient.cpp:341-405`).  Returns
the successor state together with the number of times the
`onBridgeDisconnected` callback is dispatched during the iteration:

* header read `!= 4` bytes: teardown and dispatch `onBridgeDisconnected`
  once, then `continue` (lines 346-362);
* `messageLength > MAX_MESSAGE_SIZE`: teardown with no callback, then
  `continue` (lines 364-374);
* otherwise the body is read; a short body read tears down with no
  callback (lines 380-394); a complete body is parsed and processed
  (lines 396-402); in both cases `checkHeartbeat()` then runs
  (line 404). -/
def runIteration (e : RecvEvent) (now : ℚ) (s : ClientState) : ClientState × Nat :=
  match e with
  | .headerShort =>
      ({ s with connected := false, socketOpen := false }, 1)
  | .frame declaredLen bodyOk msg =>
      if declaredLen > MAX_MESSAGE_SIZE then
        ({ s with connected := false, socketOpen := false }, 0)
      else
        let s1 :=
          if bodyOk then
            match msg with
            | some m => processMessage now m s
            | none => s
          else
            { s with connected := false, socketOpen := false }
        (checkHeartbeat now s1, 0)

/-- Effects of one `HeartSyncBLEClient::sendCommand` call
(`HeartSyncBLEClient.cpp:290-332`): the resulting `connected` flag,
whether the 4-byte length header / the payload were handed to `::send`,
how many "Sending bridge command" log lines were dispatched, and how
many error callbacks were fired (the function body contains no error
reporting path at all, and the class has no outgoing command queue). -/
structure SendOutcome where
  connectedAfter : Bool
  headerPassedToSend : Bool
  payloadPassedToSend : Bool
  logLines : Nat
  errorCallbacks : Nat
deriving DecidableEq, Repr

/-- `HeartSyncBLEClient::sendCommand`.  Inputs: the `connected` flag,
whether `socketFd >= 0`, whether the command `var` `isObject()`, whether
its `type` property is a non-empty string, the serialized payload size
in bytes, and the byte counts the two `::send` calls would report
(`osHeaderBytes`, `osPayloadBytes`).  Mirrors the source branch for
branch: the guard at line 292 returns silently; an oversized payload is
dropped at line 313-314 after the log at line 303; a header write `!= 4`
sets `connected = false` (lines 319-323); a payload write `!=
payloadSize` sets `connected = false` (lines 327-331). -/
def sendCommand (connected socketOpen isObject hasTypeField : Bool)
    (payloadSize : Nat) (osHeaderBytes osPayloadBytes : ℤ) : SendOutcome :=
  if ¬(connected ∧ socketOpen ∧ isObject) then
    ⟨connected, false, false, 0, 0⟩
  else
    let logs : Nat := if hasTypeField then 1 else 0
    if payloadSize > MAX_MESSAGE_SIZE then
      ⟨connected, false, false, logs, 0⟩
    else if osHeaderBytes ≠ 4 then
      ⟨false, true, false, logs, 0⟩
    else if osPayloadBytes ≠ (payloadSize : ℤ) then
      ⟨false, true, true, logs, 0⟩
    else
      ⟨connected, true, true, logs, 0⟩

/-- `PluginProcessor_Professional.h:205-207`: the three history arrays
are `std::array<float, 200>`. -/
def HISTORY_CAPACITY : Nat := 200

/-- History-ring state (`PluginProcessor_Professional.h:204-209`): three
fixed 200-slot stores sharing one write index and one populated count.
The stores are total functions on `Nat`; the code only ever touches
indices below the capacity (`historyWriteIndex` starts at 0 and is
always reduced `% size`), so every access below goes through
`% HISTORY_CAPACITY`. -/
structure HistoryState where
  rawStore : Nat → ℚ
  smoothedStore : Nat → ℚ
  wetDryStore : Nat → ℚ
  writeIndex : Nat
  count : Nat

/-- Initial history state: zero-initialised arrays, `historyWriteIndex{0}`,
`historyCount{0}`. -/
def initHistory : HistoryState :=
  ⟨fun _ => 0, fun _ => 0, fun _ => 0, 0, 0⟩

/-- `HeartSyncVST3AudioProcessor::addToHistory`
(`PluginProcessor_Professional.cpp:935-946`): write all three values at
`historyWriteIndex`, advance the index modulo the array size, and
saturate `historyCount` at the capacity. -/
def addToHistory (rawHr smoothedHr wetDry : ℚ) (s : HistoryState) : HistoryState :=
  { rawStore := Function.update s.rawStore (s.writeIndex % HISTORY_CAPACITY) rawHr
    smoothedStore := Function.update s.smoothedStore (s.writeIndex % HISTORY_CAPACITY) smoothedHr
    wetDryStore := Function.update s.wetDryStore (s.writeIndex % HISTORY_CAPACITY) wetDry
    writeIndex := (s.writeIndex + 1) % HISTORY_CAPACITY
    count := if s.count < HISTORY_CAPACITY then s.count + 1 else s.count }

/-- `HeartSyncVST3AudioProcessor::getRawHeartRateHistory`
(`PluginProcessor_Professional.cpp:324-343`):
`count = min(historyCount, capacity)`; `startIndex` is the write index
when the ring is full and `0` before that; the output is `count` reads
at `(startIndex + i) % capacity`, oldest first.  (The source's early
return for `count == 0` coincides with mapping over an empty range.) -/
def getRawHeartRateHistory (s : HistoryState) : List ℚ :=
  let capacity := HISTORY_CAPACITY
  let count := min s.count capacity
  let startIndex := if count = capacity then s.writeIndex else 0
  (List.range count).map fun i => s.rawStore ((startIndex + i) % capacity)

/-- Push a whole sequence of `(raw, smoothed, wetDry)` triples through
`addToHistory`, first element first. -/
def pushAllHistory (l : List (ℚ × ℚ × ℚ)) (s : HistoryState) : HistoryState :=
  l.foldl (fun st t => addToHistory t.1 t.2.1 t.2.2 st) s

/-- The biometric snapshot `currentBiometricData`
(`PluginProcessor_Professional.h`, struct `BiometricData`); the
`timestamp` field (a wall-clock `steady_clock::now()`) is not modelled. -/
structure BiometricData where
  rawHeartRate : ℚ
  smoothedHeartRate : ℚ
  wetDryRatio : ℚ
  isDataValid : Bool
deriving DecidableEq, Repr

/-- Processor state read and written by the bridge path of
`updateBiometricParameters` and by the bridge `onDisconnected` handler:
the EMA smoother pair (`bridgeSmootherInitialised`,
`bridgeSmoothedValue`), the published atomics, the snapshot, the history
ring, and the device-connection bookkeeping cleared on disconnect. -/
structure ProcState where
  bridgeSmootherInitialised : Bool
  bridgeSmoothedValue : ℚ
  bridgeSmoothedHeartRate : ℚ
  bridgeWetDryRatio : ℚ
  bridgeDeviceConnected : Bool
  bridgeDataValid : Bool
  bridgeCurrentDeviceId : String
  currentBiometricData : BiometricData
  history : HistoryState

/-- Automation and notification outputs of one `updateBiometricParameters`
call: the three normalized `setValueNotifyingHost` values (none when the
call returns before reaching them) and whether `onBiometricDataUpdated`
was fired. -/
structure UpdateOutputs where
  rawNormSent : Option ℚ
  smoothNormSent : Option ℚ
  wetDryNormSent : Option ℚ
  biometricCallbackFired : Bool
deriving DecidableEq, Repr

/-- Bridge-path body of `HeartSyncVST3AudioProcessor::updateBiometricParameters`
(`PluginProcessor_Professional.cpp:691-760`), entered when
`bridgeClient && bridgeClient->isConnected() && bridgeDataValid`:

* `measuredHr <= 0`: mark the snapshot invalid and return (lines
  698-703) — nothing else is touched and no automation happens;
* otherwise: `adjustedRawHr = measuredHr + hrOffset` (line 707); the
  smoothing factor is clamped into `[0.01, 1]` (lines 710-711); an
  uninitialised smoother first seeds `bridgeSmoothedValue =
  adjustedRawHr` and sets the flag (lines 713-717); line 720 then
  applies the EMA step unconditionally; the wet/dry value follows the
  selector (lines 724-732); the atomics, the snapshot (with
  `isDataValid = (measuredHr > 0)`), the three normalized automation
  parameters and the history ring are updated (lines 734-754), and
  `onBiometricDataUpdated` fires (lines 756-757). -/
def updateBiometricParameters (heartRateOffset smoothingFactorParam wetDryOffset wetDryInputSource : ℚ)
    (measuredHr : ℚ) (st : ProcState) : ProcState × UpdateOutputs :=
  if measuredHr ≤ 0 then
    ({ st with currentBiometricData := { st.currentBiometricData with isDataValid := false } },
     ⟨none, none, none, false⟩)
  else
    let adjustedRawHr := measuredHr + heartRateOffset
    let smoothingFactor := jlimit (1/100) 1 smoothingFactorParam
    let seeded := if st.bridgeSmootherInitialised then st.bridgeSmoothedValue else adjustedRawHr
    let alpha := smoothingFactor
    let newSmoothed := emaStep alpha adjustedRawHr seeded
    let smoothedHr := newSmoothed
    let useSmoothed := wetDryInputSource > 1/2
    let wetDry := computeWetDry useSmoothed adjustedRawHr smoothedHr wetDryOffset
    ({ st with
        bridgeSmootherInitialised := true
        bridgeSmoothedValue := newSmoothed
        bridgeSmoothedHeartRate := smoothedHr
        bridgeWetDryRatio := wetDry
        currentBiometricData :=
          ⟨adjustedRawHr, smoothedHr, wetDry, decide (0 < measuredHr)⟩
        history := addToHistory adjustedRawHr smoothedHr wetDry st.history },
     ⟨some (jlimit 0 1 ((adjustedRawHr - 40) / 160)),
      some (jlimit 0 1 ((smoothedHr - 40) / 160)),
      some (jlimit 0 1 (wetDry / 100)),
      true⟩)

/-- The `bridgeClient->onDisconnected` handler installed by
`initialiseBridgeClient` (`PluginProcessor_Professional.cpp:1100-1104`):
clears the device-connected flag, the data-valid flag, the current
device id, and resets `bridgeSmootherInitialised` to `false`. -/
def onDisconnectedHandler (st : ProcState) : ProcState :=
  { st with
      bridgeDeviceConnected := false
      bridgeDataValid := false
      bridgeCurrentDeviceId := ""
      bridgeSmootherInitialised := false }

/-- Fold a sequence of measured BPM samples through the bridge path of
`updateBiometricParameters` with fixed parameter values, keeping the
evolving processor state. -/
def updateFold (heartRateOffset smoothingFactorParam wetDryOffset wetDryInputSource : ℚ)
    (samples : List ℚ) (st : ProcState) : ProcState :=
  samples.foldl
    (fun s hr =>
      (updateBiometricParameters heartRateOffset smoothingFactorParam wetDryOffset
        wetDryInputSource hr s).1)
    st

/-- EMA as the spec words it (§4.3 step 2): the first sample seeds the
output, every later sample `x` yields `s + alpha * (x - s)`.  `emaSpec
alpha seed rest` is the smoothed value after the sample sequence
`seed :: rest`. -/
def emaSpec (alpha : ℚ) (seed : ℚ) (rest : List ℚ) : ℚ :=
  rest.foldl (fun s x => s + alpha * (x - s)) seed

/-- Iterate the bridge update path on a constant measured BPM. -/
def updateIter (heartRateOffset smoothingFactorParam wetDryOffset wetDryInputSource : ℚ)
    (measuredHr : ℚ) (k : Nat) (st : ProcState) : ProcState :=
  (fun s =>
      (updateBiometricParameters heartRateOffset smoothingFactorParam wetDryOffset
        wetDryInputSource measuredHr s).1)^[k] st

/-- A concrete processor state used to instantiate universally
quantified theorems: smoother uninitialised, all published values zero,
empty history. -/
def procState0 : ProcState :=
  ⟨false, 0, 0, 0, false, false, "", ⟨0, 0, 0, false⟩, initHistory⟩

/-! ## Helper lemmas -/

theorem jlimit_mem (lower upper v : ℚ) (h : lower ≤ upper) :
    lower ≤ jlimit lower upper v ∧ jlimit lower upper v ≤ upper := by
  unfold jlimit
  split_ifs with h1 h2 <;> constructor <;> linarith

theorem jlimit_eq_self (lower upper v : ℚ) (h1 : lower ≤ v) (h2 : v ≤ upper) :
    jlimit lower upper v = v := by
  unfold jlimit
  rw [if_neg (not_lt.mpr h1), if_neg (not_lt.mpr h2)]

theorem computeWetDry_selector (b1 b2 : Bool) (adjusted smoothed off : ℚ) :
    computeWetDry b1 adjusted smoothed off = computeWetDry b2 adjusted smoothed off := by
  unfold computeWetDry wetDryDiff
  cases b1 <;> cases b2 <;> simp [abs_sub_comm]

theorem updateBiometricParameters_pos (ho sfp wo src hr : ℚ) (st : ProcState)
    (h : 0 < hr) :
    (updateBiometricParameters ho sfp wo src hr st).1.bridgeSmootherInitialised = true
    ∧ (updateBiometricParameters ho sfp wo src hr st).1.bridgeSmoothedValue
        = emaStep (jlimit (1/100) 1 sfp) (hr + ho)
            (if st.bridgeSmootherInitialised then st.bridgeSmoothedValue else hr + ho) := by
  rw [updateBiometricParameters, if_neg (not_le.mpr h)]
  exact ⟨rfl, rfl⟩

theorem emaStep_between (alpha c s : ℚ) (h1 : 0 ≤ alpha) (h2 : alpha ≤ 1) :
    (min s c ≤ emaStep alpha c s ∧ emaStep alpha c s ≤ max s c)
    ∧ |emaStep alpha c s - c| ≤ |s - c| := by
  have key : emaStep alpha c s - c = (1 - alpha) * (s - c) := by
    unfold emaStep; ring
  refine ⟨⟨?_, ?_⟩, ?_⟩
  · rcases le_total s c with hsc | hsc
    · rw [min_eq_left hsc]; unfold emaStep; nlinarith
    · rw [min_eq_right hsc]; unfold emaStep; nlinarith
  · rcases le_total s c with hsc | hsc
    · rw [max_eq_right hsc]; unfold emaStep; nlinarith
    · rw [max_eq_left hsc]; unfold emaStep; nlinarith
  · rw [key, abs_mul, abs_of_nonneg (by linarith : (0:ℚ) ≤ 1 - alpha)]
    nlinarith [abs_nonneg (s - c)]

/-! ## Claim theorems -/

/-- C5: for every reconnect attempt index `n` and every jitter factor in
`[0.9, 1.1]`, the backoff delay computed by `attemptReconnect` equals
`min(5000, 100 * 2^n)` (with `n` capped at `MAX_RECONNECT_ATTEMPTS`)
scaled by the jitter; it never exceeds `5000 * 1.1 = 5500` ms, and for
`n = 0` it is never below `100 * 0.9 = 90` ms. -/
theorem reconnect_backoff_bounds (n : ℕ) (jitter : ℚ)
    (hj1 : 9/10 ≤ jitter) (hj2 : jitter ≤ 11/10) :
    attemptReconnectDelay n jitter
        = ⌊((min 5000 (100 * 2 ^ min n MAX_RECONNECT_ATTEMPTS) : ℤ) : ℚ) * jitter⌋
      ∧ attemptReconnectDelay n jitter ≤ 5500
      ∧ 90 ≤ attemptReconnectDelay 0 jitter := by
  have hbase : ∀ m : ℕ,
      (if (100 * 2 ^ min m MAX_RECONNECT_ATTEMPTS : ℤ) > 5000 then (5000 : ℤ)
        else 100 * 2 ^ min m MAX_RECONNECT_ATTEMPTS)
      = min 5000 (100 * 2 ^ min m MAX_RECONNECT_ATTEMPTS) := by
    intro m
    rcases lt_or_le (5000 : ℤ) (100 * 2 ^ min m MAX_RECONNECT_ATTEMPTS) with hlt | hle
    · rw [if_pos hlt, min_eq_left hlt.le]
    · rw [if_neg (not_lt.mpr hle), min_eq_right hle]
  have hform : attemptReconnectDelay n jitter
      = ⌊((min 5000 (100 * 2 ^ min n MAX_RECONNECT_ATTEMPTS) : ℤ) : ℚ) * jitter⌋ := by
    simp only [attemptReconnectDelay]
    rw [hbase n]
  refine ⟨hform, ?_, ?_⟩
  · rw [hform]
    have hb1 : (min 5000 (100 * 2 ^ min n MAX_RECONNECT_ATTEMPTS) : ℤ) ≤ 5000 :=
      min_le_left _ _
    have hb0 : (0 : ℤ) ≤ min 5000 (100 * 2 ^ min n MAX_RECONNECT_ATTEMPTS) :=
      le_min (by norm_num) (by positivity)
    have hx : ((min 5000 (100 * 2 ^ min n MAX_RECONNECT_ATTEMPTS) : ℤ) : ℚ) * jitter
        ≤ ((5500 : ℤ) : ℚ) := by
      have hc1 : ((min 5000 (100 * 2 ^ min n MAX_RECONNECT_ATTEMPTS) : ℤ) : ℚ) ≤ 5000 := by
        exact_mod_cast hb1
      have hc0 : (0 : ℚ) ≤ ((min 5000 (100 * 2 ^ min n MAX_RECONNECT_ATTEMPTS) : ℤ) : ℚ) := by
        exact_mod_cast hb0
      have hj0 : (0 : ℚ) ≤ jitter := by linarith
      have hm1 : ((min 5000 (100 * 2 ^ min n MAX_RECONNECT_ATTEMPTS) : ℤ) : ℚ) * jitter
          ≤ 5000 * jitter := mul_le_mul_of_nonneg_right hc1 hj0
      have hm2 : (5000 : ℚ) * jitter ≤ 5000 * (11/10) :=
        mul_le_mul_of_nonneg_left hj2 (by norm_num)
      have h55 : ((5500 : ℤ) : ℚ) = 5500 := by norm_num
      rw [h55]
      linarith
    calc ⌊((min 5000 (100 * 2 ^ min n MAX_RECONNECT_ATTEMPTS) : ℤ) : ℚ) * jitter⌋
        ≤ ⌊((5500 : ℤ) : ℚ)⌋ := Int.floor_le_floor hx
      _ = 5500 := Int.floor_intCast 5500
  · simp only [attemptReconnectDelay]
    norm_num [MAX_RECONNECT_ATTEMPTS]
    rw [Int.le_floor]
    push_cast
    linarith

/-- Closed instance of `reconnect_backoff_bounds` at attempt index `0`
with jitter `1`. -/
theorem reconnect_backoff_bounds_witness :
    (9/10 : ℚ) ≤ 1 ∧ (1 : ℚ) ≤ 11/10
    ∧ (attemptReconnectDelay 0 1
          = ⌊((min 5000 (100 * 2 ^ min 0 MAX_RECONNECT_ATTEMPTS) : ℤ) : ℚ) * 1⌋
        ∧ attemptReconnectDelay 0 1 ≤ 5500
        ∧ 90 ≤ attemptReconnectDelay 0 1) :=
  ⟨by norm_num, by norm_num, reconnect_backoff_bounds 0 1 (by norm_num) (by norm_num)⟩

/-- C6: the wet/dry source selector does not change the computed value —
both settings produce the same result for every `(adjusted, smoothed)`
pair and every wet/dry offset, both for `computeWetDry` itself and
through `updateBiometricParameters` run with two arbitrary selector
parameter values. -/
theorem wetDry_selector_symmetry :
    (∀ adjusted smoothed off : ℚ,
      computeWetDry true adjusted smoothed off = computeWetDry false adjusted smoothed off)
    ∧ ∀ (ho sfp wo src1 src2 hr : ℚ) (st : ProcState),
        (updateBiometricParameters ho sfp wo src1 hr st).1.bridgeWetDryRatio
          = (updateBiometricParameters ho sfp wo src2 hr st).1.bridgeWetDryRatio := by
  constructor
  · intro adjusted smoothed off
    exact computeWetDry_selector true false adjusted smoothed off
  · intro ho sfp wo src1 src2 hr st
    by_cases h : hr ≤ 0
    · rw [updateBiometricParameters, if_pos h, updateBiometricParameters, if_pos h]
    · rw [updateBiometricParameters, if_neg h, updateBiometricParameters, if_neg h]
      exact computeWetDry_selector _ _ _ _ _

/-- C7: for every `diff ≥ 0` and every `wetDryOffset ∈ [-100, 100]`, the
computed wet/dry value `jlimit 0 100 (50 + diff*2 + wetDryOffset)` lies
in `[0, 100]`. -/
theorem wetDry_clamp_range (diff off : ℚ) (_hd : 0 ≤ diff)
    (_h1 : -100 ≤ off) (_h2 : off ≤ 100) :
    0 ≤ wetDryFromDiff diff off ∧ wetDryFromDiff diff off ≤ 100 := by
  unfold wetDryFromDiff jlimit
  split_ifs with ha hb <;> constructor <;> linarith

/-- Closed instance of `wetDry_clamp_range` at `diff = 0`, `off = 0`. -/
theorem wetDry_clamp_range_witness :
    (0 : ℚ) ≤ 0 ∧ (-100 : ℚ) ≤ 0 ∧ (0 : ℚ) ≤ 100
    ∧ 0 ≤ wetDryFromDiff 0 0 ∧ wetDryFromDiff 0 0 ≤ 100 :=
  ⟨by norm_num, by norm_num, by norm_num,
    (wetDry_clamp_range 0 0 (by norm_num) (by norm_num) (by norm_num)).1,
    (wetDry_clamp_range 0 0 (by norm_num) (by norm_num) (by norm_num)).2⟩

/-- C10: every command handed to `sendCommand` while the bridge
connection is down or the socket invalid is silently discarded — nothing
is passed to `::send`, no log line and no error callback are produced,
and the `connected` flag is returned unchanged.  (The class has no
outgoing command queue, so nothing can be queued; all five command
builders — `startScan`, `connectToDevice`, `disconnectDevice`, the
handshake and the status request — route through `sendCommand`.) -/
theorem sendCommand_disconnected_noop
    (connected socketOpen isObject hasType : Bool) (sz : Nat) (hb pb : ℤ)
    (hguard : connected = false ∨ socketOpen = false) :
    sendCommand connected socketOpen isObject hasType sz hb pb
      = ⟨connected, false, false, 0, 0⟩ := by
  rcases hguard with hg | hg <;>
    · subst hg
      simp [sendCommand]

/-- Closed instance of `sendCommand_disconnected_noop`: a scan command
issued with `connected = false`. -/
theorem sendCommand_disconnected_noop_witness :
    ((false : Bool) = false ∨ (true : Bool) = false)
    ∧ sendCommand false true true true 10 4 10 = ⟨false, false, false, 0, 0⟩ :=
  ⟨Or.inl rfl, sendCommand_disconnected_noop false true true true 10 4 10 (Or.inl rfl)⟩

/-- C1 counterexample: a `Connected` client (`connected = true`, socket
open, `lastHeartbeatTime = 0`) whose heartbeat window has elapsed
(`now = 6 > 5`) processes one ordinary message.  The iteration does
tear the connection down (`connected = false`, socket closed) via
`checkHeartbeat`, but it dispatches the `onBridgeDisconnected` callback
zero times — not "exactly once" as the claim states.  (The callback is
dispatched only on a short header read, `HeartSyncBLEClient.cpp:354-360`;
`checkHeartbeat` fires no callback, lines 476-489.) -/
theorem heartbeat_timeout_counterexample :
    runIteration (.frame 10 true (some .other)) 6 ⟨true, true, 0⟩
        = (⟨false, false, 0⟩, 0)
      ∧ (runIteration (.frame 10 true (some .other)) 6 ⟨true, true, 0⟩).2 ≠ 1 := by
  constructor
  · norm_num [runIteration, MAX_MESSAGE_SIZE, processMessage, checkHeartbeat, HEARTBEAT_TIMEOUT]
  · norm_num [runIteration, MAX_MESSAGE_SIZE]

/-- C1 (amended): when the heartbeat window has elapsed on a `Connected`
client, the teardown happens at the next `run`-loop iteration that
successfully reads a complete message not resetting the timer — the
client marks itself disconnected and closes the socket, but fires the
bridge-disconnect callback zero times; a client that receives nothing at
all stays parked in the blocking header read, so no teardown precedes
the next completed read. -/
theorem heartbeat_timeout_teardown_amended
    (s : ClientState) (len : Nat) (msg : Option BridgeMessage) (now : ℚ)
    (hconn : s.connected = true) (hopen : s.socketOpen = true)
    (hlen : len ≤ MAX_MESSAGE_SIZE)
    (hmsg : msg ≠ some .heartbeat)
    (ht : now - s.lastHeartbeatTime > HEARTBEAT_TIMEOUT) :
    runIteration (.frame len true msg) now s
      = ({ s with connected := false, socketOpen := false }, 0) := by
  have hdo : ∀ s1 : ClientState, s1 = s →
      (checkHeartbeat now s1, (0 : Nat))
        = ({ s with connected := false, socketOpen := false }, (0 : Nat)) := by
    intro s1 h
    subst h
    rw [checkHeartbeat, if_pos ht]
  rcases msg with _ | m
  · simp only [runIteration]
    rw [if_neg (not_lt.mpr hlen)]
    exact hdo _ rfl
  · cases m
    · exact absurd rfl hmsg
    · simp only [runIteration]
      rw [if_neg (not_lt.mpr hlen)]
      exact hdo _ rfl

/-- Closed instance of `heartbeat_timeout_teardown_amended`: a malformed
frame (parse failure, `msg = none`) read at `now = 7` with the last
heartbeat at `1`. -/
theorem heartbeat_timeout_teardown_amended_witness :
    (7 : ℚ) - 1 > HEARTBEAT_TIMEOUT
    ∧ runIteration (.frame 5 true none) 7 ⟨true, true, 1⟩ = (⟨false, false, 1⟩, 0) :=
  ⟨by norm_num [HEARTBEAT_TIMEOUT],
   heartbeat_timeout_teardown_amended ⟨true, true, 1⟩ 5 none 7 rfl rfl
     (by norm_num [MAX_MESSAGE_SIZE]) (by simp) (by norm_num [HEARTBEAT_TIMEOUT])⟩

/-- C4 counterexample: a 65537-byte payload sent on a healthy channel is
dropped — neither the length header nor the payload reaches `::send` —
but the channel is NOT marked broken: `sendCommand` returns at
`HeartSyncBLEClient.cpp:313-314` without touching `connected`, which
stays `true`.  The claim's send-side "the channel is marked broken" is
false. -/
theorem oversized_send_counterexample :
    sendCommand true true true true 65537 4 65537 = ⟨true, false, false, 1, 0⟩
      ∧ (sendCommand true true true true 65537 4 65537).connectedAfter ≠ false := by
  constructor
  · rfl
  · intro h
    simp [sendCommand, MAX_MESSAGE_SIZE] at h

/-- C4 (amended): a payload larger than `MAX_MESSAGE_SIZE = 65536` bytes
is never transmitted by `sendCommand` and never accepted by the receive
loop.  On the send side the message is dropped silently and the
`connected` flag is left unchanged (the channel is marked broken only by
short writes, not by the oversize guard); on the receive side a length
prefix exceeding 65536 tears the channel down (disconnected, socket
closed) without attempting to read the body and without dispatching the
bridge-disconnect callback. -/
theorem oversized_payload_amended :
    (∀ (hasType : Bool) (sz : Nat) (hb pb : ℤ), MAX_MESSAGE_SIZE < sz →
        sendCommand true true true hasType sz hb pb
          = ⟨true, false, false, if hasType then 1 else 0, 0⟩)
    ∧ ∀ (s : ClientState) (now : ℚ) (len : Nat) (bodyOk : Bool) (msg : Option BridgeMessage),
        MAX_MESSAGE_SIZE < len →
        runIteration (.frame len bodyOk msg) now s
          = ({ s with connected := false, socketOpen := false }, 0) := by
  constructor
  · intro hasType sz hb pb hsz
    rw [sendCommand, if_neg (by simp), if_pos hsz]
  · intro s now len bodyOk msg hlen
    simp only [runIteration]
    rw [if_pos hlen]

/-- Closed instance of `oversized_payload_amended` at payload and frame
size 65537. -/
theorem oversized_payload_amended_witness :
    MAX_MESSAGE_SIZE < 65537
    ∧ sendCommand true true true false 65537 4 65537
        = ⟨true, false, false, if (false : Bool) then 1 else 0, 0⟩
    ∧ runIteration (.frame 65537 true (some .other)) 1 ⟨true, true, 0⟩
        = (⟨false, false, 0⟩, 0) :=
  ⟨by norm_num [MAX_MESSAGE_SIZE],
   oversized_payload_amended.1 false 65537 4 65537 (by norm_num [MAX_MESSAGE_SIZE]),
   oversized_payload_amended.2 ⟨true, true, 0⟩ 1 65537 true (some .other)
     (by norm_num [MAX_MESSAGE_SIZE])⟩

/-- C9: whenever `measuredHr ≤ 0`, the bridge update path marks the
snapshot's `isDataValid` flag false and returns early: the smoother
state, the published atomics, the history rings, the snapshot's other
fields, the device bookkeeping are all unchanged, no automation
parameter is written, and no update callback fires
(`PluginProcessor_Professional.cpp:698-703`). -/
theorem invalid_sample_frame_effect (ho sfp wo src hr : ℚ) (st : ProcState)
    (h : hr ≤ 0) :
    updateBiometricParameters ho sfp wo src hr st
      = ({ st with currentBiometricData := { st.currentBiometricData with isDataValid := false } },
         ⟨none, none, none, false⟩) := by
  rw [updateBiometricParameters, if_pos h]

/-- Closed instance of `invalid_sample_frame_effect` at `measuredHr = 0`
on the concrete state `procState0`. -/
theorem invalid_sample_frame_effect_witness :
    (0 : ℚ) ≤ 0
    ∧ updateBiometricParameters 1 (1/2) 2 0 0 procState0
        = ({ procState0 with
              currentBiometricData := { procState0.currentBiometricData with isDataValid := false } },
           ⟨none, none, none, false⟩) :=
  ⟨le_refl 0, invalid_sample_frame_effect 1 (1/2) 2 0 0 procState0 (le_refl 0)⟩

/-- C8: with a constant measured BPM `c > 0` and heart-rate offset `0`,
each smoothed value produced by the bridge update path lies between the
previous smoothed value and `c`, and its distance to `c` never grows —
monotone convergence without overshoot.  The smoothing gain is whatever
the code clamps the parameter to (`jlimit (1/100) 1`), so no hypothesis
on the raw smoothing parameter is needed.  Indices start at `k+1`,
i.e. at the first smoothed value that exists (`N ≥ 2` samples). -/
theorem ema_monotone_convergence (ho sfp wo src c : ℚ) (st : ProcState) (k : ℕ)
    (hoff : ho = 0) (hc : 0 < c) :
    (min ((updateIter ho sfp wo src c (k+1) st).bridgeSmoothedValue) c
        ≤ (updateIter ho sfp wo src c (k+2) st).bridgeSmoothedValue
      ∧ (updateIter ho sfp wo src c (k+2) st).bridgeSmoothedValue
        ≤ max ((updateIter ho sfp wo src c (k+1) st).bridgeSmoothedValue) c)
    ∧ |(updateIter ho sfp wo src c (k+2) st).bridgeSmoothedValue - c|
        ≤ |(updateIter ho sfp wo src c (k+1) st).bridgeSmoothedValue - c| := by
  subst hoff
  obtain ⟨ha1, ha2⟩ := jlimit_mem (1/100) 1 sfp (by norm_num)
  have hstep : ∀ t : ProcState, t.bridgeSmootherInitialised = true →
      (updateBiometricParameters 0 sfp wo src c t).1.bridgeSmoothedValue
        = emaStep (jlimit (1/100) 1 sfp) c t.bridgeSmoothedValue := by
    intro t ht
    obtain ⟨_, hval⟩ := updateBiometricParameters_pos 0 sfp wo src c t hc
    rw [hval, ht]
    simp
  have hinit : ∀ t : ProcState,
      (updateBiometricParameters 0 sfp wo src c t).1.bridgeSmootherInitialised = true :=
    fun t => (updateBiometricParameters_pos 0 sfp wo src c t hc).1
  have hiter_init : (updateIter 0 sfp wo src c (k+1) st).bridgeSmootherInitialised = true := by
    rw [updateIter, Function.iterate_succ_apply']
    exact hinit _
  have hsucc : updateIter 0 sfp wo src c (k+2) st
      = (updateBiometricParameters 0 sfp wo src c (updateIter 0 sfp wo src c (k+1) st)).1 := by
    rw [updateIter, updateIter, Function.iterate_succ_apply']
  have hval : (updateIter 0 sfp wo src c (k+2) st).bridgeSmoothedValue
      = emaStep (jlimit (1/100) 1 sfp) c
          ((updateIter 0 sfp wo src c (k+1) st).bridgeSmoothedValue) := by
    rw [hsucc]
    exact hstep _ hiter_init
  obtain ⟨⟨hmin, hmax⟩, habs⟩ :=
    emaStep_between (jlimit (1/100) 1 sfp) c
      ((updateIter 0 sfp wo src c (k+1) st).bridgeSmoothedValue) (by linarith) ha2
  rw [hval]
  exact ⟨⟨hmin, hmax⟩, habs⟩

/-- Closed instance of `ema_monotone_convergence` with constant measured
BPM `1`, smoothing parameter `1/2`, starting from `procState0`. -/
theorem ema_monotone_convergence_witness :
    (0 : ℚ) = 0 ∧ (0 : ℚ) < 1
    ∧ ((min ((updateIter 0 (1/2) 0 0 1 1 procState0).bridgeSmoothedValue) 1
          ≤ (updateIter 0 (1/2) 0 0 1 2 procState0).bridgeSmoothedValue
        ∧ (updateIter 0 (1/2) 0 0 1 2 procState0).bridgeSmoothedValue
          ≤ max ((updateIter 0 (1/2) 0 0 1 1 procState0).bridgeSmoothedValue) 1)
      ∧ |(updateIter 0 (1/2) 0 0 1 2 procState0).bridgeSmoothedValue - 1|
          ≤ |(updateIter 0 (1/2) 0 0 1 1 procState0).bridgeSmoothedValue - 1|) :=
  ⟨rfl, by norm_num, ema_monotone_convergence 0 (1/2) 0 0 1 procState0 0 rfl (by norm_num)⟩

theorem updateFold_initialised_spec (ho sfp wo src : ℚ)
    (hα : jlimit (1/100) 1 sfp = sfp) :
    ∀ (rest : List ℚ) (st : ProcState),
      st.bridgeSmootherInitialised = true → (∀ x ∈ rest, 0 < x) →
      (updateFold ho sfp wo src rest st).bridgeSmootherInitialised = true
      ∧ (updateFold ho sfp wo src rest st).bridgeSmoothedValue
          = emaSpec sfp st.bridgeSmoothedValue (rest.map (· + ho)) := by
  intro rest
  induction rest with
  | nil =>
    intro st hinit _
    exact ⟨hinit, rfl⟩
  | cons x xs ih =>
    intro st hinit hpos
    have hx : 0 < x := hpos x (List.mem_cons_self x xs)
    have hxs : ∀ y ∈ xs, 0 < y := fun y hy => hpos y (List.mem_cons_of_mem x hy)
    obtain ⟨hi, hv⟩ := updateBiometricParameters_pos ho sfp wo src x st hx
    have hfold : updateFold ho sfp wo src (x :: xs) st
        = updateFold ho sfp wo src xs (updateBiometricParameters ho sfp wo src x st).1 := rfl
    rw [hfold]
    obtain ⟨ih1, ih2⟩ := ih (updateBiometricParameters ho sfp wo src x st).1 hi hxs
    refine ⟨ih1, ?_⟩
    rw [ih2, hv, hα, hinit]
    simp [emaSpec, emaStep]

/-- C2: for every sequence of accepted (positive) heart-rate samples fed
through the bridge update path after a reset, the resulting smoothed
value is exactly the spec's EMA of the offset-adjusted samples with gain
equal to the smoothing factor directly: the first sample seeds the EMA
(the code's seed-then-step at lines 713-720 collapses to `smoothed =
adjusted` on the first sample), every later sample applies
`smoothed + alpha * (adjusted - smoothed)`; and the bridge
`onDisconnected` handler clears the first-sample flag so the next sample
reseeds. -/
theorem ema_matches_spec_and_resets (ho sfp wo src : ℚ)
    (hs1 : 1/100 ≤ sfp) (hs2 : sfp ≤ 1) :
    (∀ (a : ℚ) (rest : List ℚ) (st : ProcState),
        st.bridgeSmootherInitialised = false → 0 < a → (∀ x ∈ rest, 0 < x) →
        (updateFold ho sfp wo src (a :: rest) st).bridgeSmoothedValue
          = emaSpec sfp (a + ho) (rest.map (· + ho)))
    ∧ ∀ st : ProcState, (onDisconnectedHandler st).bridgeSmootherInitialised = false := by
  have hα : jlimit (1/100) 1 sfp = sfp := jlimit_eq_self _ _ _ hs1 hs2
  constructor
  · intro a rest st hinit ha hpos
    obtain ⟨hi, hv⟩ := updateBiometricParameters_pos ho sfp wo src a st ha
    have hfold : updateFold ho sfp wo src (a :: rest) st
        = updateFold ho sfp wo src rest (updateBiometricParameters ho sfp wo src a st).1 := rfl
    rw [hfold]
    obtain ⟨_, h2⟩ := updateFold_initialised_spec ho sfp wo src hα rest _ hi hpos
    rw [h2, hv, hα, hinit]
    simp [emaStep]
  · intro st
    rfl

/-- Closed instance of `ema_matches_spec_and_resets`: samples `[1, 2]`
with offset `0` and smoothing factor `1/2` from the uninitialised
state. -/
theorem ema_matches_spec_and_resets_witness :
    procState0.bridgeSmootherInitialised = false ∧ (0 : ℚ) < 1
    ∧ (updateFold 0 (1/2) 0 0 [1, 2] procState0).bridgeSmoothedValue
        = emaSpec (1/2) (1 + 0) ([2].map (· + 0)) :=
  ⟨rfl, by norm_num,
   (ema_matches_spec_and_resets 0 (1/2) 0 0 (by norm_num) (by norm_num)).1 1 [2] procState0
     rfl (by norm_num)
     (by
       intro x hx
       rw [List.mem_singleton] at hx
       rw [hx]
       norm_num)⟩

theorem pushAllHistory_spec (l : List (ℚ × ℚ × ℚ)) :
    (pushAllHistory l initHistory).writeIndex = l.length % HISTORY_CAPACITY
    ∧ (pushAllHistory l initHistory).count = min l.length HISTORY_CAPACITY
    ∧ ∀ (m : Nat) (hm : m < l.length), l.length ≤ m + HISTORY_CAPACITY →
        (pushAllHistory l initHistory).rawStore (m % HISTORY_CAPACITY)
          = (l.get ⟨m, hm⟩).1 := by
  induction l using List.reverseRecOn with
  | nil =>
    refine ⟨rfl, rfl, ?_⟩
    intro m hm
    exact absurd hm (Nat.not_lt_zero m)
  | append_singleton xs x ih =>
    obtain ⟨ih1, ih2, ih3⟩ := ih
    have hcap : HISTORY_CAPACITY = 200 := rfl
    have hfold : pushAllHistory (xs ++ [x]) initHistory
        = addToHistory x.1 x.2.1 x.2.2 (pushAllHistory xs initHistory) := by
      simp [pushAllHistory, List.foldl_append]
    have hlen : (xs ++ [x]).length = xs.length + 1 := by simp
    refine ⟨?_, ?_, ?_⟩
    · rw [hfold, hlen]
      show ((pushAllHistory xs initHistory).writeIndex + 1) % HISTORY_CAPACITY = _
      rw [ih1, hcap]
      omega
    · rw [hfold, hlen]
      show (if (pushAllHistory xs initHistory).count < HISTORY_CAPACITY
            then (pushAllHistory xs initHistory).count + 1
            else (pushAllHistory xs initHistory).count) = _
      rw [ih2, hcap]
      split_ifs <;> omega
    · intro m hm hwin
      have hm' : m < xs.length + 1 := by
        rw [hlen] at hm
        exact hm
      have hwin' : xs.length + 1 ≤ m + 200 := by
        rw [hlen, hcap] at hwin
        exact hwin
      rw [hfold]
      show Function.update (pushAllHistory xs initHistory).rawStore
          ((pushAllHistory xs initHistory).writeIndex % HISTORY_CAPACITY) x.1
          (m % HISTORY_CAPACITY) = ((xs ++ [x]).get ⟨m, hm⟩).1
      rw [ih1]
      by_cases hmn : m = xs.length
      · have hidx : xs.length % HISTORY_CAPACITY % HISTORY_CAPACITY = m % HISTORY_CAPACITY := by
          rw [hcap]
          omega
        rw [hidx, Function.update_same]
        have hget : (xs ++ [x]).get ⟨m, hm⟩ = x := by
          rw [List.get_eq_getElem]
          exact List.getElem_concat_length xs x m hmn hm
        rw [hget]
      · have hlt : m < xs.length := by omega
        have hne : m % HISTORY_CAPACITY ≠ xs.length % HISTORY_CAPACITY % HISTORY_CAPACITY := by
          rw [hcap]
          omega
        rw [Function.update_noteq hne]
        have hget : (xs ++ [x]).get ⟨m, hm⟩ = xs.get ⟨m, hlt⟩ := by
          rw [List.get_eq_getElem, List.get_eq_getElem]
          exact List.getElem_append_left hlt
        rw [hget]
        refine ih3 m hlt ?_
        rw [hcap]
        omega

/-- C3: pushing any sequence of samples through `addToHistory` starting
from the empty ring and then reading with `getRawHeartRateHistory`
yields exactly the last `min(length, 200)` raw values, oldest first:
the result is `drop (length - 200)` of the pushed raw values.  For
`k ≤ 200` pushes the subtraction truncates to `0`, so the read returns
exactly those `k` values oldest-first; for `200 + m` pushes it returns
the most recent `200` values oldest-first. -/
theorem history_ring_correct (l : List (ℚ × ℚ × ℚ)) :
    getRawHeartRateHistory (pushAllHistory l initHistory)
      = (l.map fun t => t.1).drop (l.length - HISTORY_CAPACITY) := by
  obtain ⟨h1, h2, h3⟩ := pushAllHistory_spec l
  have hcap : HISTORY_CAPACITY = 200 := rfl
  simp only [getRawHeartRateHistory]
  have hcount : min (pushAllHistory l initHistory).count HISTORY_CAPACITY
      = min l.length HISTORY_CAPACITY := by
    rw [h2, hcap]
    omega
  rw [hcount]
  apply List.ext_getElem
  · simp only [List.length_map, List.length_range, List.length_drop, hcap]
    omega
  · intro i hi1 hi2
    have hi : i < min l.length HISTORY_CAPACITY := by
      simpa using hi1
    rw [List.getElem_map, List.getElem_range, List.getElem_drop, List.getElem_map]
    have hidx : ((if min l.length HISTORY_CAPACITY = HISTORY_CAPACITY
          then (pushAllHistory l initHistory).writeIndex else 0) + i) % HISTORY_CAPACITY
        = (l.length - HISTORY_CAPACITY + i) % HISTORY_CAPACITY := by
      split_ifs with hc
      · rw [h1, hcap]
        rw [hcap] at hc hi
        omega
      · rw [hcap]
        rw [hcap] at hc hi
        omega
    rw [hidx]
    have h3g := h3 (l.length - HISTORY_CAPACITY + i)
      (by rw [hcap]; rw [hcap] at hi; omega)
      (by rw [hcap]; rw [hcap] at hi; omega)
    rw [List.get_eq_getElem] at h3g
    exact h3g

end HeartSync
